import Mathlib

/-!
Verification of two telegraf input plugins: the `iptables` plugin
(CLI output regex parsing) and the `nginx_plus` plugin (JSON status
flattening).  The Go sources are shallowly embedded: maps become
association lists, nilable pointers become `Option`, a Go panic
(nil-pointer dereference) is modelled as `Option.none` at the level of
the function that would crash, and fallible functions return the error
as an `Option String` alongside the accumulator, mirroring the Go
`(result, error)` shape.
-/

namespace Telegraf

/-! ## Metric model

The telegraf accumulator interface (`AddFields`, `AddError`) is the
narrow boundary both plugins emit through.  Field values in these two
plugins are Go `int`/`int64` (modelled as `Int`), `uint64` (modelled as
`Nat`), `bool` and `string`.  A Go map is modelled as an association
list; `insertTag` mirrors map assignment (replace or append).
`Accumulator.addError` ignores `none`, as telegraf's `AddError` ignores
a nil error. -/

inductive FieldValue where
  | i (v : Int)
  | u (v : Nat)
  | b (v : Bool)
  | s (v : String)
deriving DecidableEq, Repr

structure Metric where
  measurement : String
  tags : List (String × String)
  fields : List (String × FieldValue)
deriving DecidableEq, Repr

structure Accumulator where
  metrics : List Metric
  errors : List String
deriving DecidableEq, Repr

def Accumulator.addFields (acc : Accumulator) (measurement : String)
    (fields : List (String × FieldValue)) (tags : List (String × String)) : Accumulator :=
  { acc with metrics := acc.metrics ++ [⟨measurement, tags, fields⟩] }

def Accumulator.addMetrics (acc : Accumulator) (ms : List Metric) : Accumulator :=
  { acc with metrics := acc.metrics ++ ms }

def Accumulator.addError (acc : Accumulator) : Option String → Accumulator
  | none => acc
  | some e => { acc with errors := acc.errors ++ [e] }

def insertTag : List (String × String) → String → String → List (String × String)
  | [], k, v => [(k, v)]
  | (k', v') :: rest, k, v =>
    if k' = k then (k, v) :: rest else (k', v') :: insertTag rest k v

def lookupTag : List (String × String) → String → Option String
  | [], _ => none
  | (k', v') :: rest, k => if k' = k then some v' else lookupTag rest k

/-! ## Go regular expressions of the iptables plugin

The plugin compiles three RE2 patterns:

  chainNameRe    = `^Chain\s+(\S+)`
  fieldsHeaderRe = `^\s*pkts\s+bytes\s+target`
  valuesRe       = `^\s*(\d+)\s+(\d+)\s+(\w+).*?/\*\s*(.+?)\s*\*/\s*`

Go's regexp package uses leftmost-first (Perl-style) matching, so the
patterns are embedded as deterministic scanners plus the one place where
genuine backtracking can occur (the `\s*(.+?)\s*\*/` suffix of
`valuesRe`).  RE2 character classes: `\s = [\t\n\f\r ]`,
`\d = [0-9]`, `\w = [0-9A-Za-z_]`, and `.` matches anything but a
newline. -/

def isSpaceChar (c : Char) : Bool :=
  c = ' ' || c = '\t' || c = '\n' || c = '\x0c' || c = '\r'

def isDigitChar (c : Char) : Bool :=
  '0' ≤ c && c ≤ '9'

def isWordChar (c : Char) : Bool :=
  c.isAlphanum || c = '_'

/-- `strings.Split(data, "\n")`, on the character list.  Splitting the
empty string yields one empty line, as in Go. -/
def splitLines : List Char → List (List Char)
  | [] => [[]]
  | '\n' :: rest => [] :: splitLines rest
  | c :: rest =>
    match splitLines rest with
    | l :: ls => (c :: l) :: ls
    | [] => [[c]]

/-- `chainNameRe.FindStringSubmatch`: anchored `Chain`, at least one
whitespace, then the captured maximal nonempty run of non-whitespace.
Greedy `\s+` followed by `\S` is deterministic because the classes are
disjoint. -/
def chainNameMatch : List Char → Option (List Char)
  | 'C' :: 'h' :: 'a' :: 'i' :: 'n' :: rest =>
    if (rest.takeWhile isSpaceChar).isEmpty then none
    else
      let after := rest.dropWhile isSpaceChar
      let name := after.takeWhile (fun c => !isSpaceChar c)
      if name.isEmpty then none else some name
  | _ => none

/-- `fieldsHeaderRe.MatchString`: optional whitespace then the literals
`pkts`, `bytes`, `target` separated by at least one whitespace. -/
def fieldsHeaderMatch (cs : List Char) : Bool :=
  match cs.dropWhile isSpaceChar with
  | 'p' :: 'k' :: 't' :: 's' :: r1 =>
    if (r1.takeWhile isSpaceChar).isEmpty then false
    else
      match r1.dropWhile isSpaceChar with
      | 'b' :: 'y' :: 't' :: 'e' :: 's' :: r2 =>
        if (r2.takeWhile isSpaceChar).isEmpty then false
        else
          match r2.dropWhile isSpaceChar with
          | 't' :: 'a' :: 'r' :: 'g' :: 'e' :: 't' :: _ => true
          | _ => false
      | _ => false
  | _ => false

/-- The deterministic tail `\s*\*/` of `valuesRe`: greedy whitespace
then the literal close delimiter.  Backtracking inside this `\s*`
cannot help because a reduced run would put a whitespace character
where `*` is required. -/
def closeAt (r : List Char) : Option (List Char) :=
  match r.dropWhile isSpaceChar with
  | '*' :: '/' :: rest => some rest
  | _ => none

/-- The lazy capture `(.+?)` followed by `\s*\*/`: consume one
character at a time (never a newline, since `.` excludes it), and after
each character test whether the deterministic tail matches.  The first
success gives the shortest capture, exactly as leftmost-first matching
does. -/
def lazyCapture (acc : List Char) : List Char → Option (List Char × List Char)
  | [] => none
  | c :: rest =>
    if c = '\n' then none
    else
      match closeAt rest with
      | some rem => some (acc ++ [c], rem)
      | none => lazyCapture (acc ++ [c]) rest

/-- Backtracking over the greedy `\s*` that precedes `(.+?)`: the
engine first consumes the maximal whitespace run, and on failure of the
rest of the pattern retries with one character fewer, down to zero. -/
def capLoop (r : List Char) : Nat → Option (List Char × List Char)
  | 0 => lazyCapture [] r
  | j + 1 =>
    match lazyCapture [] (r.drop (j + 1)) with
    | some res => some res
    | none => capLoop r j

/-- The suffix `\s*(.+?)\s*\*/` of `valuesRe`, applied just after an
occurrence of the open delimiter. -/
def capAt (r : List Char) : Option (List Char × List Char) :=
  capLoop r (r.takeWhile isSpaceChar).length

/-- The `.*?/\*` part of `valuesRe` followed by its suffix: the lazy
`.*?` tries each occurrence of the open delimiter from left to right,
moving one character at a time (and never across a newline), and at
each occurrence runs the suffix matcher; on failure the open delimiter
itself is consumed by `.` and the scan continues. -/
def commentLoop : List Char → Option (List Char × List Char)
  | '/' :: '*' :: rest =>
    (match capAt rest with
     | some res => some res
     | none => commentLoop ('*' :: rest))
  | '\n' :: _ => none
  | _ :: rest => commentLoop rest
  | [] => none

/-- `valuesRe.FindStringSubmatch`, returning the four capture groups
(packets, bytes, target, rule comment).  The leading greedy
`\s*`, `(\d+)`, `\s+` and `(\w+)` pieces are deterministic because
each quantified class is disjoint from what follows it (and `.`
subsumes word characters, so shortening `(\w+)` can never reveal a new
open delimiter). -/
def valuesMatch (cs : List Char) : Option (List Char × List Char × List Char × List Char) :=
  let r0 := cs.dropWhile isSpaceChar
  let d1 := r0.takeWhile isDigitChar
  if d1.isEmpty then none
  else
    let r1 := r0.dropWhile isDigitChar
    if (r1.takeWhile isSpaceChar).isEmpty then none
    else
      let r2 := r1.dropWhile isSpaceChar
      let d2 := r2.takeWhile isDigitChar
      if d2.isEmpty then none
      else
        let r3 := r2.dropWhile isDigitChar
        if (r3.takeWhile isSpaceChar).isEmpty then none
        else
          let r4 := r3.dropWhile isSpaceChar
          let w := r4.takeWhile isWordChar
          if w.isEmpty then none
          else
            let r5 := r4.dropWhile isWordChar
            match commentLoop r5 with
            | none => none
            | some (comment, _) => some (d1, d2, w, comment)

/-! ## strconv.ParseUint -/

def digitsToNat (s : List Char) : Nat :=
  s.foldl (fun n c => n * 10 + (c.toNat - '0'.toNat)) 0

/-- `strconv.ParseUint(s, 10, 64)`: succeeds on a nonempty all-digit
string whose value fits in 64 bits. -/
def parseUint64 (s : List Char) : Option Nat :=
  if s.isEmpty then none
  else if s.all isDigitChar then
    let v := digitsToNat s
    if v < 2 ^ 64 then some v else none
  else none

/-! ## The iptables plugin -/

def errParse : String := "cannot parse iptables list information"

def measurement : String := "iptables"

/-- `chainLister` is the injected dependency that shells out to the
`iptables` binary; it is a function field so that theorems quantify over
every possible lister behaviour. -/
structure Iptables where
  useSudo : Bool
  useLock : Bool
  binary : String
  table : String
  chains : List String
  lister : String → String → Except String String

/-- Body of the rule loop of `parseAndGather`: match `valuesRe`
against a line; on a match build the tag map and parse the two
counters, skipping the line if either fails; on success add one
`iptables` metric. -/
def ruleStep (table chain : String) (acc : Accumulator) (line : List Char) : Accumulator :=
  match valuesMatch line with
  | none => acc
  | some (pkts, bytesStr, target, comment) =>
    let tags := [("table", table), ("chain", chain),
                 ("target", target.asString), ("ruleid", comment.asString)]
    match parseUint64 pkts with
    | none => acc
    | some pktsVal =>
      match parseUint64 bytesStr with
      | none => acc
      | some bytesVal =>
        acc.addFields measurement
          [("pkts", FieldValue.u pktsVal), ("bytes", FieldValue.u bytesVal)] tags

/-- `(*Iptables).parseAndGather`: split into lines; fewer than three
lines is a silent no-op; the first line must name the chain and the
second must be the column header, otherwise `errParse`; the remaining
lines run through the rule loop. -/
def Iptables.parseAndGather (ipt : Iptables) (data : String) (acc : Accumulator) :
    Accumulator × Option String :=
  let lines := splitLines data.toList
  if lines.length < 3 then (acc, none)
  else
    match chainNameMatch (lines.getD 0 []) with
    | none => (acc, some errParse)
    | some mchain =>
      if fieldsHeaderMatch (lines.getD 1 []) = false then (acc, some errParse)
      else ((lines.drop 2).foldl (ruleStep ipt.table mchain.asString) acc, none)

/-- Outcome of `(*Iptables).Gather`; `listerCalls` records every
invocation of the chain lister, in order, so that theorems can speak
about which chains were listed. -/
structure GatherOutcome where
  acc : Accumulator
  listerCalls : List (String × String)
  ret : Option String
deriving Repr

/-- Body of the chain loop of `Gather`: list the chain (recording the
call); a lister error is added to the accumulator and the chain is
skipped; otherwise parse, adding any parse error to the accumulator. -/
def gatherStep (ipt : Iptables) (st : Accumulator × List (String × String))
    (chain : String) : Accumulator × List (String × String) :=
  let calls := st.2 ++ [(ipt.table, chain)]
  match ipt.lister ipt.table chain with
  | .error e => ((st.1).addError (some e), calls)
  | .ok data =>
    match ipt.parseAndGather data st.1 with
    | (acc', some e) => (acc'.addError (some e), calls)
    | (acc', none) => (acc', calls)

/-- `(*Iptables).Gather`: with an empty table name or no configured
chains it returns immediately; otherwise it is best effort over all
chains and always returns nil. -/
def Iptables.gather (ipt : Iptables) (acc : Accumulator) : GatherOutcome :=
  if ipt.table = "" ∨ ipt.chains = [] then ⟨acc, [], none⟩
  else
    let st := ipt.chains.foldl (gatherStep ipt) (acc, [])
    ⟨st.1, st.2, none⟩

/-- The per-line rule of claim C3, written from the claim's words: a
line after the header contributes exactly one `iptables` metric when
the counters regex matches it and both counters parse as unsigned
64-bit integers, with tags table, chain, target and ruleid and fields
pkts and bytes; otherwise it contributes nothing. -/
def claimRuleMetric (table chain : String) (line : List Char) : Option Metric :=
  match valuesMatch line with
  | none => none
  | some (pkts, bytesStr, target, comment) =>
    match parseUint64 pkts, parseUint64 bytesStr with
    | some pktsVal, some bytesVal =>
      some ⟨measurement,
            [("table", table), ("chain", chain),
             ("target", target.asString), ("ruleid", comment.asString)],
            [("pkts", FieldValue.u pktsVal), ("bytes", FieldValue.u bytesVal)]⟩
    | _, _ => none

/-- The error or metric-free outcome a single chain contributes to
`Gather`, used to state claim C9: the lister's error if listing fails,
otherwise the parse error of the listed output (which does not depend
on the accumulator). -/
def chainOutcome (ipt : Iptables) (chain : String) : Option String :=
  match ipt.lister ipt.table chain with
  | .error e => some e
  | .ok data => (ipt.parseAndGather data ⟨[], []⟩).2

/-! ## The nginx_plus plugin: decoded status document

The JSON schema of the status endpoint, after `encoding/json` decoding.
A nilable pointer field becomes an `Option`; a JSON object used as a
map becomes an association list keyed by the JSON name.  The struct
comments of the source mark which fields are version-dependent. -/

structure ResponseStats where
  responses1xx : Int
  responses2xx : Int
  responses3xx : Int
  responses4xx : Int
  responses5xx : Int
  total : Int
deriving DecidableEq, Repr

structure BasicHitStats where
  responses : Int
  bytes : Int
deriving DecidableEq, Repr

structure ExtendedHitStats where
  responses : Int
  bytes : Int
  responsesWritten : Int
  bytesWritten : Int
deriving DecidableEq, Repr

structure HealthCheckStats where
  checks : Int
  fails : Int
  unhealthy : Int
  lastPassed : Option Bool
deriving DecidableEq, Repr

structure Processes where
  respawned : Option Int
deriving DecidableEq, Repr

structure Connections where
  accepted : Int
  dropped : Int
  active : Int
  idle : Int
deriving DecidableEq, Repr

structure Ssl where
  handshakes : Int
  handshakesFailed : Int
  sessionReuses : Int
deriving DecidableEq, Repr

structure Requests where
  total : Int
  current : Int
deriving DecidableEq, Repr

structure ServerZone where
  processing : Int
  requests : Int
  responses : ResponseStats
  discarded : Option Int
  received : Int
  sent : Int
deriving DecidableEq, Repr

structure UpstreamPeer where
  id : Option Int
  server : String
  backup : Bool
  weight : Int
  state : String
  active : Int
  keepalive : Option Int
  maxConns : Option Int
  requests : Int
  responses : ResponseStats
  sent : Int
  received : Int
  fails : Int
  unavail : Int
  healthChecks : HealthCheckStats
  downtime : Int
  downstart : Int
  selected : Option Int
  headerTime : Option Int
  responseTime : Option Int
deriving DecidableEq, Repr

structure UpstreamQueue where
  size : Int
  maxSize : Int
  overflows : Int
deriving DecidableEq, Repr

structure Upstream where
  peers : List UpstreamPeer
  keepalive : Int
  zombies : Int
  queue : Option UpstreamQueue
deriving DecidableEq, Repr

structure Cache where
  size : Int
  maxSize : Int
  cold : Bool
  hit : BasicHitStats
  stale : BasicHitStats
  updating : BasicHitStats
  revalidated : Option BasicHitStats
  miss : ExtendedHitStats
  expired : ExtendedHitStats
  bypass : ExtendedHitStats
deriving DecidableEq, Repr

structure StreamServerZone where
  processing : Int
  connections : Int
  sessions : Option ResponseStats
  discarded : Option Int
  received : Int
  sent : Int
deriving DecidableEq, Repr

structure StreamPeer where
  id : Int
  server : String
  backup : Bool
  weight : Int
  state : String
  active : Int
  connections : Int
  connectTime : Option Int
  firstByteTime : Option Int
  responseTime : Option Int
  sent : Int
  received : Int
  fails : Int
  unavail : Int
  healthChecks : HealthCheckStats
  downtime : Int
  downstart : Int
  selected : Int
deriving DecidableEq, Repr

structure StreamUpstream where
  peers : List StreamPeer
  zombies : Int
deriving DecidableEq, Repr

structure Stream where
  serverZones : List (String × StreamServerZone)
  upstreams : List (String × StreamUpstream)
deriving DecidableEq, Repr

structure Status where
  version : Int
  nginxVersion : String
  address : String
  generation : Option Int
  loadTimestamp : Option Int
  timestamp : Int
  pid : Option Int
  processes : Option Processes
  connections : Connections
  ssl : Option Ssl
  requests : Requests
  serverZones : List (String × ServerZone)
  upstreams : List (String × Upstream)
  caches : List (String × Cache)
  stream : Stream
deriving DecidableEq, Repr

/-! ## The nginx_plus plugin: metric emission

Each `gather*Metrics` method mirrors its Go counterpart.  A method that
dereferences a nilable pointer without a nil check returns
`Option (List Metric)`, with `none` standing for the nil-pointer panic;
the methods that cannot panic return the emitted metrics directly. -/

/-- `gatherProcessesMetrics`: reads `s.Processes.Respawned`, which
dereferences the `processes` pointer itself without a nil check — a
panic (`none`) when the section is absent. -/
def Status.gatherProcessesMetrics (s : Status) (tags : List (String × String)) :
    Option (List Metric) :=
  match s.processes with
  | none => none
  | some procs =>
    let respawned := match procs.respawned with
      | some r => r
      | none => 0
    some [⟨"nginx_plus_processes", tags, [("respawned", FieldValue.i respawned)]⟩]

def Status.gatherConnectionsMetrics (s : Status) (tags : List (String × String)) :
    List Metric :=
  [⟨"nginx_plus_connections", tags,
    [("accepted", FieldValue.i s.connections.accepted),
     ("dropped", FieldValue.i s.connections.dropped),
     ("active", FieldValue.i s.connections.active),
     ("idle", FieldValue.i s.connections.idle)]⟩]

/-- `gatherSslMetrics`: reads the fields of `s.Ssl` without a nil
check — a panic (`none`) when the `ssl` section is absent. -/
def Status.gatherSslMetrics (s : Status) (tags : List (String × String)) :
    Option (List Metric) :=
  match s.ssl with
  | none => none
  | some ssl =>
    some [⟨"nginx_plus_ssl", tags,
      [("handshakes", FieldValue.i ssl.handshakes),
       ("handshakes_failed", FieldValue.i ssl.handshakesFailed),
       ("session_reuses", FieldValue.i ssl.sessionReuses)]⟩]

def Status.gatherRequestMetrics (s : Status) (tags : List (String × String)) :
    List Metric :=
  [⟨"nginx_plus_requests", tags,
    [("total", FieldValue.i s.requests.total),
     ("current", FieldValue.i s.requests.current)]⟩]

/-- One `nginx_plus_zone` metric, tagged with the zone name; the
`discarded` field is added only when present (added in schema
version 6). -/
def zoneMetric (tags : List (String × String)) (nz : String × ServerZone) : Metric :=
  let z := nz.2
  ⟨"nginx_plus_zone", insertTag tags "zone" nz.1,
    [("processing", FieldValue.i z.processing),
     ("requests", FieldValue.i z.requests),
     ("responses_1xx", FieldValue.i z.responses.responses1xx),
     ("responses_2xx", FieldValue.i z.responses.responses2xx),
     ("responses_3xx", FieldValue.i z.responses.responses3xx),
     ("responses_4xx", FieldValue.i z.responses.responses4xx),
     ("responses_5xx", FieldValue.i z.responses.responses5xx),
     ("responses_total", FieldValue.i z.responses.total),
     ("received", FieldValue.i z.received),
     ("sent", FieldValue.i z.sent)]
    ++ (match z.discarded with
        | some d => [("discarded", FieldValue.i d)]
        | none => [])⟩

def Status.gatherZoneMetrics (s : Status) (tags : List (String × String)) : List Metric :=
  s.serverZones.map (zoneMetric tags)

/-- One `nginx_plus_upstream` metric; the queue fields are added only
when the `queue` block (added in schema version 6) is present. -/
def upstreamMetric (utags : List (String × String)) (u : Upstream) : Metric :=
  ⟨"nginx_plus_upstream", utags,
    [("keepalive", FieldValue.i u.keepalive),
     ("zombies", FieldValue.i u.zombies)]
    ++ (match u.queue with
        | some q =>
          [("queue_size", FieldValue.i q.size),
           ("queue_max_size", FieldValue.i q.maxSize),
           ("queue_overflows", FieldValue.i q.overflows)]
        | none => [])⟩

/-- One `nginx_plus_upstream_peer` metric: the optional fields
`healthchecks_last_passed`, `header_time`, `response_time` and
`max_conns`, and the optional tag `id`, are added only when present. -/
def upstreamPeerMetric (utags : List (String × String)) (p : UpstreamPeer) : Metric :=
  let selected := match p.selected with
    | some v => v
    | none => 0
  let fields :=
    [("backup", FieldValue.b p.backup),
     ("weight", FieldValue.i p.weight),
     ("state", FieldValue.s p.state),
     ("active", FieldValue.i p.active),
     ("requests", FieldValue.i p.requests),
     ("responses_1xx", FieldValue.i p.responses.responses1xx),
     ("responses_2xx", FieldValue.i p.responses.responses2xx),
     ("responses_3xx", FieldValue.i p.responses.responses3xx),
     ("responses_4xx", FieldValue.i p.responses.responses4xx),
     ("responses_5xx", FieldValue.i p.responses.responses5xx),
     ("responses_total", FieldValue.i p.responses.total),
     ("sent", FieldValue.i p.sent),
     ("received", FieldValue.i p.received),
     ("fails", FieldValue.i p.fails),
     ("unavail", FieldValue.i p.unavail),
     ("healthchecks_checks", FieldValue.i p.healthChecks.checks),
     ("healthchecks_fails", FieldValue.i p.healthChecks.fails),
     ("healthchecks_unhealthy", FieldValue.i p.healthChecks.unhealthy),
     ("downtime", FieldValue.i p.downtime),
     ("downstart", FieldValue.i p.downstart),
     ("selected", FieldValue.i selected)]
    ++ (match p.healthChecks.lastPassed with
        | some lp => [("healthchecks_last_passed", FieldValue.b lp)]
        | none => [])
    ++ (match p.headerTime with
        | some v => [("header_time", FieldValue.i v)]
        | none => [])
    ++ (match p.responseTime with
        | some v => [("response_time", FieldValue.i v)]
        | none => [])
    ++ (match p.maxConns with
        | some v => [("max_conns", FieldValue.i v)]
        | none => [])
  let ptags := insertTag utags "upstream_address" p.server
  let ptags := match p.id with
    | some i => insertTag ptags "id" (toString i)
    | none => ptags
  ⟨"nginx_plus_upstream_peer", ptags, fields⟩

def Status.gatherUpstreamMetrics (s : Status) (tags : List (String × String)) : List Metric :=
  s.upstreams.flatMap (fun nu =>
    let utags := insertTag tags "upstream" nu.1
    upstreamMetric utags nu.2 :: nu.2.peers.map (upstreamPeerMetric utags))

/-- One `nginx_plus_cache` metric: reads `cache.Revalidated.Responses`
and `.Bytes` without a nil check — a panic (`none`) when the
`revalidated` block (added in schema version 3) is absent. -/
def cacheMetric (tags : List (String × String)) (nc : String × Cache) : Option Metric :=
  let c := nc.2
  match c.revalidated with
  | none => none
  | some rv =>
    some ⟨"nginx_plus_cache", insertTag tags "cache" nc.1,
      [("size", FieldValue.i c.size),
       ("max_size", FieldValue.i c.maxSize),
       ("cold", FieldValue.b c.cold),
       ("hit_responses", FieldValue.i c.hit.responses),
       ("hit_bytes", FieldValue.i c.hit.bytes),
       ("stale_responses", FieldValue.i c.stale.responses),
       ("stale_bytes", FieldValue.i c.stale.bytes),
       ("updating_responses", FieldValue.i c.updating.responses),
       ("updating_bytes", FieldValue.i c.updating.bytes),
       ("revalidated_responses", FieldValue.i rv.responses),
       ("revalidated_bytes", FieldValue.i rv.bytes),
       ("miss_responses", FieldValue.i c.miss.responses),
       ("miss_bytes", FieldValue.i c.miss.bytes),
       ("miss_responses_written", FieldValue.i c.miss.responsesWritten),
       ("miss_bytes_written", FieldValue.i c.miss.bytesWritten),
       ("expired_responses", FieldValue.i c.expired.responses),
       ("expired_bytes", FieldValue.i c.expired.bytes),
       ("expired_responses_written", FieldValue.i c.expired.responsesWritten),
       ("expired_bytes_written", FieldValue.i c.expired.bytesWritten),
       ("bypass_responses", FieldValue.i c.bypass.responses),
       ("bypass_bytes", FieldValue.i c.bypass.bytes),
       ("bypass_responses_written", FieldValue.i c.bypass.responsesWritten),
       ("bypass_bytes_written", FieldValue.i c.bypass.bytesWritten)]⟩

def Status.gatherCacheMetrics (s : Status) (tags : List (String × String)) :
    Option (List Metric) :=
  s.caches.mapM (cacheMetric tags)

def streamZoneMetric (tags : List (String × String)) (nz : String × StreamServerZone) :
    Metric :=
  ⟨"nginx.stream.zone", insertTag tags "zone" nz.1,
    [("processing", FieldValue.i nz.2.processing),
     ("connections", FieldValue.i nz.2.connections),
     ("received", FieldValue.i nz.2.received),
     ("sent", FieldValue.i nz.2.sent)]⟩

def streamUpstreamMetric (utags : List (String × String)) (u : StreamUpstream) : Metric :=
  ⟨"nginx_plus_stream_upstream", utags, [("zombies", FieldValue.i u.zombies)]⟩

/-- One `nginx_plus_stream_upstream_peer` metric: the optional fields
`healthchecks_last_passed`, `connect_time`, `first_byte_time` and
`response_time` are added only when present; the `id` tag is always
present (stream peer ids are not pointers). -/
def streamPeerMetric (utags : List (String × String)) (p : StreamPeer) : Metric :=
  let fields :=
    [("backup", FieldValue.b p.backup),
     ("weight", FieldValue.i p.weight),
     ("state", FieldValue.s p.state),
     ("active", FieldValue.i p.active),
     ("connections", FieldValue.i p.connections),
     ("sent", FieldValue.i p.sent),
     ("received", FieldValue.i p.received),
     ("fails", FieldValue.i p.fails),
     ("unavail", FieldValue.i p.unavail),
     ("healthchecks_checks", FieldValue.i p.healthChecks.checks),
     ("healthchecks_fails", FieldValue.i p.healthChecks.fails),
     ("healthchecks_unhealthy", FieldValue.i p.healthChecks.unhealthy),
     ("downtime", FieldValue.i p.downtime),
     ("downstart", FieldValue.i p.downstart),
     ("selected", FieldValue.i p.selected)]
    ++ (match p.healthChecks.lastPassed with
        | some lp => [("healthchecks_last_passed", FieldValue.b lp)]
        | none => [])
    ++ (match p.connectTime with
        | some v => [("connect_time", FieldValue.i v)]
        | none => [])
    ++ (match p.firstByteTime with
        | some v => [("first_byte_time", FieldValue.i v)]
        | none => [])
    ++ (match p.responseTime with
        | some v => [("response_time", FieldValue.i v)]
        | none => [])
  let ptags := insertTag (insertTag utags "upstream_address" p.server) "id" (toString p.id)
  ⟨"nginx_plus_stream_upstream_peer", ptags, fields⟩

def Status.gatherStreamMetrics (s : Status) (tags : List (String × String)) : List Metric :=
  s.stream.serverZones.map (streamZoneMetric tags)
  ++ s.stream.upstreams.flatMap (fun nu =>
      let utags := insertTag tags "upstream" nu.1
      streamUpstreamMetric utags nu.2 :: nu.2.peers.map (streamPeerMetric utags))

/-- `(*status).gather`: the eight sections in source order.  A panic in
any section (a `none` from a pointer-dereferencing section) crashes the
whole collection, so the combined result is `none`; the panics strike
in source order (processes, then ssl, then caches). -/
def Status.gather (s : Status) (tags : List (String × String)) : Option (List Metric) :=
  match s.gatherProcessesMetrics tags with
  | none => none
  | some m1 =>
    match s.gatherSslMetrics tags with
    | none => none
    | some m3 =>
      match s.gatherCacheMetrics tags with
      | none => none
      | some m7 =>
        some (m1 ++ s.gatherConnectionsMetrics tags ++ m3 ++ s.gatherRequestMetrics tags
          ++ s.gatherZoneMetrics tags ++ s.gatherUpstreamMetrics tags ++ m7
          ++ s.gatherStreamMetrics tags)

/-! ## Projections used to state the flattening claims -/

/-- The metrics of `ms` whose measurement is `name`. -/
def byMeas (ms : List Metric) (name : String) : List Metric :=
  ms.filter (fun m => m.measurement == name)

/-- How many metrics of `ms` carry measurement `name`. -/
def measCount (ms : List Metric) (name : String) : Nat :=
  (byMeas ms name).length

/-- The value of tag `t` on each metric of `ms` with measurement
`name`, in emission order. -/
def tagsOf (ms : List Metric) (name t : String) : List (Option String) :=
  (byMeas ms name).map (fun m => lookupTag m.tags t)

/-- The keys of a metric's field map, in insertion order. -/
def fieldKeys (m : Metric) : List String :=
  m.fields.map (fun f => f.1)

/-- The keys of a metric's tag map, in insertion order. -/
def tagKeys (m : Metric) : List String :=
  m.tags.map (fun t => t.1)

/-! ## The nginx_plus plugin: HTTP layer and Gather

External collaborators are modelled at their narrow interfaces:
`net/url.Parse` is an oracle `String → Option URL`; the HTTP exchange
is an oracle `URL → NetResponse` whose body is carried as the outcome
of `encoding/json` decoding (`Option Status`, `none` for a decode
failure); `tls.ClientConfig.TLSConfig()` is carried as a precomputed
`Except` on the plugin value. -/

structure URL where
  scheme : String
  host : String
deriving DecidableEq, Repr

def URL.render (u : URL) : String :=
  u.scheme ++ "://" ++ u.host

/-- Index of the first occurrence of a character, as in the byteIndex
helper of Go's net package (all characters involved are ASCII). -/
def byteIndex (cs : List Char) (c : Char) : Option Nat :=
  match cs with
  | [] => none
  | d :: rest => if d = c then some 0 else (byteIndex rest c).map (· + 1)

/-- Index of the last occurrence of a character, as in the `last`
helper of Go's net package. -/
def lastByteIndex (cs : List Char) (c : Char) : Option Nat :=
  match byteIndex cs.reverse c with
  | none => none
  | some j => some (cs.length - 1 - j)

/-- Model of Go's `net.SplitHostPort`.  The port starts after the last
colon; with no colon the address is missing a port (`none`).  A host
in square brackets must have its closing bracket just before that
colon and is returned unwrapped; a colon or a stray bracket inside an
unbracketed host, a bracket after the opening one, or anything between
the closing bracket and the final colon, are errors (`none`). -/
def splitHostPort (hostport : String) : Option (String × String) :=
  let cs := hostport.toList
  match lastByteIndex cs ':' with
  | none => none
  | some i =>
    let port := (cs.drop (i + 1)).asString
    match cs with
    | '[' :: _ =>
      match byteIndex cs ']' with
      | none => none
      | some e =>
        if e + 1 = cs.length then none
        else if e + 1 ≠ i then none
        else if (byteIndex (cs.drop 1) '[').isSome then none
        else if (byteIndex (cs.drop (e + 1)) ']').isSome then none
        else some (((cs.take e).drop 1).asString, port)
    | _ =>
      if (byteIndex (cs.take i) ':').isSome then none
      else if (byteIndex cs '[').isSome then none
      else if (byteIndex cs ']').isSome then none
      else some ((cs.take i).asString, port)

/-- `getTags`: split the URL host into server and port; when the split
fails, the server is the whole host and the port is defaulted from the
scheme. -/
def getTags (addr : URL) : List (String × String) :=
  match splitHostPort addr.host with
  | some (host, port) => [("server", host), ("port", port)]
  | none =>
    let host := addr.host
    let port :=
      if addr.scheme = "http" then "80"
      else if addr.scheme = "https" then "443"
      else ""
    [("server", host), ("port", port)]

structure HTTPClient where
  timeout : Int
deriving DecidableEq, Repr

/-- `config.Duration(time.Second)` in nanoseconds. -/
def nsPerSecond : Int := 1000000000

/-- `(*NginxPlus).createHTTPClient`: a configured response timeout
below one second becomes five seconds (mutating the receiver), then the
TLS configuration is built; on TLS failure the error is returned. -/
structure NginxPlus where
  urls : List String
  responseTimeout : Int
  tlsConfigResult : Except String Unit
  client : Option HTTPClient

def NginxPlus.createHTTPClient (n : NginxPlus) : NginxPlus × Except String HTTPClient :=
  let n' :=
    if n.responseTimeout < nsPerSecond then
      { n with responseTimeout := 5 * nsPerSecond }
    else n
  match n'.tlsConfigResult with
  | .error e => (n', .error e)
  | .ok _ => (n', .ok { timeout := n'.responseTimeout })

/-- One HTTP exchange, as seen by `gatherURL`: a transport error, or a
status line plus headers plus the JSON-decode outcome of the body. -/
structure NetResponse where
  transportError : Option String
  statusCode : Nat
  statusText : String
  contentType : String
  body : Option Status

/-- `gatherStatusURL`: a failed decode is an error; a successful decode
gathers the status (which may panic — `none`). -/
def gatherStatusURL (body : Option Status) (tags : List (String × String)) :
    Option (Except String (List Metric)) :=
  match body with
  | none => some (.error "error while decoding JSON response")
  | some st =>
    match st.gather tags with
    | none => none
    | some ms => some (.ok ms)

/-- `(*NginxPlus).gatherURL`: transport errors, non-200 statuses and
non-JSON content types (the header up to the first semicolon) are
errors; only a JSON body is decoded and gathered.  The outer `Option`
is `none` when gathering panics. -/
def gatherURL (addr : URL) (resp : NetResponse) : Option (Except String (List Metric)) :=
  match resp.transportError with
  | some e =>
    some (.error ("error making HTTP request to " ++ addr.render ++ ": " ++ e))
  | none =>
    if resp.statusCode ≠ 200 then
      some (.error (addr.render ++ " returned HTTP status " ++ resp.statusText))
    else
      let contentType := (resp.contentType.toList.takeWhile (fun c => c ≠ ';')).asString
      if contentType = "application/json" then
        gatherStatusURL resp.body (getTags addr)
      else
        some (.error (addr.render ++ " returned unexpected content type " ++ contentType))

/-- Body of the URL loop of `Gather`: an unparsable URL is reported via
`AddError` and skipped; otherwise the URL is gathered, its metrics go
to the accumulator and its error (nil-tolerant) is added.  The
goroutine-per-URL with a wait barrier is modelled sequentially; a panic
in any URL's gathering crashes the whole collection (`none`). -/
def gatherLoopStep (parse : String → Option URL) (net : URL → NetResponse)
    (acc : Accumulator) (u : String) : Option Accumulator :=
  match parse u with
  | none => some (acc.addError (some ("unable to parse address " ++ u)))
  | some addr =>
    match gatherURL addr (net addr) with
    | none => none
    | some (.error e) => some (acc.addError (some e))
    | some (.ok ms) => some ((acc.addMetrics ms).addError none)

/-- `(*NginxPlus).Gather`: create the HTTP client if none is stored
(returning the creation error if that fails), then process every
configured URL and return nil. -/
def NginxPlus.gather (n : NginxPlus) (parse : String → Option URL)
    (net : URL → NetResponse) (acc : Accumulator) :
    Option (NginxPlus × Accumulator × Option String) :=
  match n.client with
  | none =>
    match n.createHTTPClient with
    | (n', .error e) => some (n', acc, some e)
    | (n', .ok c) =>
      let n2 := { n' with client := some c }
      match n2.urls.foldlM (gatherLoopStep parse net) acc with
      | none => none
      | some acc' => some (n2, acc', none)
  | some _ =>
    match n.urls.foldlM (gatherLoopStep parse net) acc with
    | none => none
    | some acc' => some (n, acc', none)

/-- The error one URL contributes to the accumulator during `Gather`,
used to state claim C6: the parse failure message for an unparsable
URL, otherwise the per-URL gathering error, if any. -/
def urlError (parse : String → Option URL) (net : URL → NetResponse) (u : String) :
    Option String :=
  match parse u with
  | none => some ("unable to parse address " ++ u)
  | some addr =>
    match gatherURL addr (net addr) with
    | some (.error e) => some e
    | _ => none

/-- The metrics one URL contributes during `Gather`, used to state
claim C6. -/
def urlMetrics (parse : String → Option URL) (net : URL → NetResponse) (u : String) :
    List Metric :=
  match parse u with
  | none => []
  | some addr =>
    match gatherURL addr (net addr) with
    | some (.ok ms) => ms
    | _ => []

/-! ## Concrete sample values

Inputs used by witness and counterexample theorems.  `iptListOutput` is
a typical `iptables -nvL -x` listing; the statuses exercise the
versioned optional sections of the nginx_plus schema. -/

def emptyAcc : Accumulator := ⟨[], []⟩

def iptSample : Iptables :=
  { useSudo := false, useLock := false, binary := "", table := "filter",
    chains := ["INPUT"], lister := fun _ _ => .ok "" }

def iptListOutput : String :=
  "Chain INPUT (policy ACCEPT 0 packets, 0 bytes)\n    pkts      bytes target     prot opt in     out     source               destination\n     100     1024 ACCEPT     tcp  --  *      *       0.0.0.0/0            0.0.0.0/0            /* ssh */\nnot a rule line"

def listerW : String → String → Except String String := fun _ chain =>
  if chain = "BAD" then .error "exit status 1"
  else .ok "Chain FORWARD (policy ACCEPT)\n pkts bytes target\n 1 2 ACCEPT /* ok */"

def iptW : Iptables :=
  { useSudo := false, useLock := false, binary := "", table := "filter",
    chains := ["BAD", "FORWARD"], lister := listerW }

def tagsLocal : List (String × String) := [("server", "localhost"), ("port", "80")]

def rs0 : ResponseStats := ⟨0, 0, 0, 0, 0, 0⟩

def hc0 : HealthCheckStats := ⟨0, 0, 0, none⟩

def cacheNoReval : Cache :=
  ⟨0, 0, false, ⟨0, 0⟩, ⟨0, 0⟩, ⟨0, 0⟩, none, ⟨0, 0, 0, 0⟩, ⟨0, 0, 0, 0⟩, ⟨0, 0, 0, 0⟩⟩

/-- A schema-version-2 style document: no `processes`, no `ssl`, and a
cache without the `revalidated` block. -/
def statusV2 : Status :=
  ⟨2, "1.10.1", "1.2.3.4", none, none, 0, none, none, ⟨10, 2, 3, 1⟩, none, ⟨100, 5⟩,
    [], [], [("cache_a", cacheNoReval)], ⟨[], []⟩⟩

/-- A decoded document whose only absent optional section is
`processes`. -/
def statusNoProcesses : Status :=
  ⟨6, "1.11.3", "10.0.0.1", none, none, 0, none, none, ⟨4, 1, 2, 1⟩, some ⟨7, 1, 3⟩,
    ⟨9, 2⟩, [], [], [], ⟨[], []⟩⟩

def zoneSample : ServerZone := ⟨1, 2, rs0, some 3, 4, 5⟩

def peerSample : UpstreamPeer :=
  ⟨some 0, "10.0.0.1:80", false, 1, "up", 0, none, some 10, 5, rs0, 0, 0, 0, 0,
    ⟨1, 0, 0, some true⟩, 0, 0, some 3, some 7, some 9⟩

def upstreamSample : Upstream := ⟨[peerSample], 3, 0, some ⟨1, 2, 3⟩⟩

def cacheWithReval : Cache :=
  ⟨1, 2, true, ⟨1, 1⟩, ⟨2, 2⟩, ⟨3, 3⟩, some ⟨4, 4⟩, ⟨5, 5, 5, 5⟩, ⟨6, 6, 6, 6⟩,
    ⟨7, 7, 7, 7⟩⟩

def streamZoneSample : StreamServerZone := ⟨1, 2, none, none, 3, 4⟩

def streamPeerSample : StreamPeer :=
  ⟨1, "10.0.0.2:12", false, 1, "up", 0, 4, some 1, some 2, some 3, 0, 0, 0, 0, hc0, 0, 0, 6⟩

def streamUpstreamSample : StreamUpstream := ⟨[streamPeerSample], 0⟩

/-- A document with every optional pointer section present. -/
def statusFull : Status :=
  ⟨7, "1.11.3", "10.0.0.1", some 1, some 0, 0, some 42, some ⟨some 1⟩, ⟨4, 1, 2, 1⟩,
    some ⟨7, 1, 3⟩, ⟨9, 2⟩, [("z1", zoneSample)], [("u1", upstreamSample)],
    [("c1", cacheWithReval)], ⟨[("sz1", streamZoneSample)], [("su1", streamUpstreamSample)]⟩⟩

/-- A fully-present empty document (no zones, upstreams or caches). -/
def statusTiny : Status :=
  ⟨7, "1.11.3", "h", none, none, 0, none, some ⟨some 0⟩, ⟨0, 0, 0, 0⟩, some ⟨0, 0, 0⟩,
    ⟨0, 0⟩, [], [], [], ⟨[], []⟩⟩

/-- A decoded document that makes `status.gather` panic: its
`processes` field decodes to nil. -/
def statusCrash : Status :=
  ⟨2, "1.9.0", "h", none, none, 0, none, none, ⟨0, 0, 0, 0⟩, none, ⟨0, 0⟩, [], [], [],
    ⟨[], []⟩⟩

def urlH1 : URL := ⟨"http", "h1"⟩

def parseAll : String → Option URL := fun _ => some urlH1

def netCrash : URL → NetResponse :=
  fun _ => ⟨none, 200, "200 OK", "application/json", some statusCrash⟩

def netTiny : URL → NetResponse :=
  fun _ => ⟨none, 200, "200 OK", "application/json; charset=utf-8", some statusTiny⟩

def parseW : String → Option URL := fun s => if s = "http://h1" then some urlH1 else none

def nginxCrash : NginxPlus :=
  ⟨["http://h1"], 2 * nsPerSecond, .ok (), some ⟨2 * nsPerSecond⟩⟩

def nginxW : NginxPlus :=
  ⟨["bad url", "http://h1"], 2 * nsPerSecond, .ok (), some ⟨2 * nsPerSecond⟩⟩

def nginxLazy : NginxPlus := ⟨[], 0, .ok (), none⟩

def url8 : URL := ⟨"http", "h8"⟩

def resp404 : NetResponse := ⟨none, 404, "404 Not Found", "application/json", none⟩

/-! ## Theorems: the iptables plugin -/

/-- `parseAndGather`, with its let binding unfolded. -/
theorem parseAndGather_eq (ipt : Iptables) (data : String) (acc : Accumulator) :
    ipt.parseAndGather data acc =
      (if (splitLines data.toList).length < 3 then (acc, none)
       else
        match chainNameMatch ((splitLines data.toList).getD 0 []) with
        | none => (acc, some errParse)
        | some mchain =>
          if fieldsHeaderMatch ((splitLines data.toList).getD 1 []) = false then
            (acc, some errParse)
          else
            (((splitLines data.toList).drop 2).foldl (ruleStep ipt.table mchain.asString) acc,
              none)) := rfl

/-- The rule loop of `parseAndGather` appends exactly the metrics that
the per-line rule yields. -/
theorem foldl_ruleStep (table chain : String) (ls : List (List Char)) (acc : Accumulator) :
    ls.foldl (ruleStep table chain) acc =
      { acc with metrics := acc.metrics ++ ls.filterMap (claimRuleMetric table chain) } := by
  induction ls generalizing acc with
  | nil => simp
  | cons l ls ih =>
    rw [List.foldl_cons, ih, List.filterMap_cons]
    unfold ruleStep claimRuleMetric
    rcases hv : valuesMatch l with _ | ⟨pkts, bytesStr, target, comment⟩
    · simp [hv]
    · rcases hp : parseUint64 pkts with _ | pktsVal
      · simp [hv, hp]
      · rcases hb : parseUint64 bytesStr with _ | bytesVal
        · simp [hv, hp, hb]
        · simp [hv, hp, hb, Accumulator.addFields]

/-- Claim C3: on an input of at least three lines whose first line
matches the chain-name pattern (capturing `chain`) and whose second
line matches the pkts/bytes/target header, `parseAndGather` returns no
error and appends exactly one `iptables` metric per subsequent line on
which the counters regex matches and both counters parse as unsigned
64-bit integers, carrying tags table, chain, target and ruleid and
fields pkts and bytes; all other lines are skipped. -/
theorem C3_parse_rule_metrics (ipt : Iptables) (data : String) (acc : Accumulator)
    (chain : List Char)
    (h3 : 3 ≤ (splitLines data.toList).length)
    (hc : chainNameMatch ((splitLines data.toList).getD 0 []) = some chain)
    (hh : fieldsHeaderMatch ((splitLines data.toList).getD 1 []) = true) :
    ipt.parseAndGather data acc =
      ({ acc with
          metrics := acc.metrics ++ ((splitLines data.toList).drop 2).filterMap (claimRuleMetric ipt.table chain.asString) },
        none) := by
  have h3' : ¬((splitLines data.toList).length < 3) := by omega
  rw [parseAndGather_eq, if_neg h3']
  simp only [hc, hh]
  rw [if_neg (by simp [hh]), foldl_ruleStep]

/-- Witness for C3 on a concrete `iptables -nvL` listing: the single
comment-bearing rule line yields the single metric; the trailing
non-rule line is skipped. -/
theorem C3_witness :
    iptSample.parseAndGather iptListOutput emptyAcc =
      ({ metrics := [⟨"iptables",
          [("table", "filter"), ("chain", "INPUT"), ("target", "ACCEPT"), ("ruleid", "ssh")],
          [("pkts", FieldValue.u 100), ("bytes", FieldValue.u 1024)]⟩],
         errors := [] }, none) := by
  have h := C3_parse_rule_metrics iptSample iptListOutput emptyAcc ("INPUT".toList)
    (by decide) (by decide) (by decide)
  rw [h]
  decide

/-- Claim C4: `parseAndGather` returns the parse error exactly when the
input has at least three lines and the first line fails the chain-name
pattern or the second line fails the fields header; with fewer than
three lines it returns no error and leaves the accumulator unchanged. -/
theorem C4_parse_error_iff (ipt : Iptables) (data : String) (acc : Accumulator) :
    ((ipt.parseAndGather data acc).2 = some errParse ↔
      3 ≤ (splitLines data.toList).length ∧
        (chainNameMatch ((splitLines data.toList).getD 0 []) = none ∨
         fieldsHeaderMatch ((splitLines data.toList).getD 1 []) = false)) ∧
    ((splitLines data.toList).length < 3 → ipt.parseAndGather data acc = (acc, none)) := by
  rw [parseAndGather_eq]
  by_cases h3 : (splitLines data.toList).length < 3
  · rw [if_pos h3]
    refine ⟨⟨fun h => absurd h (by simp), fun h => absurd h.1 (by omega)⟩, fun _ => rfl⟩
  · rw [if_neg h3]
    refine ⟨?_, fun h => absurd h h3⟩
    rcases hc : chainNameMatch ((splitLines data.toList).getD 0 []) with _ | name
    · exact iff_of_true rfl ⟨by omega, Or.inl rfl⟩
    · dsimp only
      by_cases hh : fieldsHeaderMatch ((splitLines data.toList).getD 1 []) = false
      · rw [if_pos hh]
        exact iff_of_true rfl ⟨by omega, Or.inr hh⟩
      · rw [if_neg hh]
        refine iff_of_false (by simp) ?_
        rintro ⟨_, h | h⟩
        · cases h
        · exact hh h

/-- Witness for C4: a three-line input whose first line is not a chain
header produces the parse error. -/
theorem C4_witness :
    (iptSample.parseAndGather "x\ny\nz" emptyAcc).2 = some errParse :=
  (C4_parse_error_iff iptSample "x\ny\nz" emptyAcc).1.mpr (by decide)

/-- `parseAndGather` never adds errors to the accumulator; it only
returns them. -/
theorem parseAndGather_fst_errors (ipt : Iptables) (data : String) (acc : Accumulator) :
    (ipt.parseAndGather data acc).1.errors = acc.errors := by
  rw [parseAndGather_eq]
  by_cases h3 : (splitLines data.toList).length < 3
  · rw [if_pos h3]
  · rw [if_neg h3]
    rcases hc : chainNameMatch ((splitLines data.toList).getD 0 []) with _ | name
    · rfl
    · dsimp only
      by_cases hh : fieldsHeaderMatch ((splitLines data.toList).getD 1 []) = false
      · rw [if_pos hh]
      · rw [if_neg hh]
        simp [foldl_ruleStep]

/-- The error returned by `parseAndGather` does not depend on the
accumulator passed in. -/
theorem parseAndGather_snd_ind (ipt : Iptables) (data : String) (a b : Accumulator) :
    (ipt.parseAndGather data a).2 = (ipt.parseAndGather data b).2 := by
  rw [parseAndGather_eq, parseAndGather_eq]
  by_cases h3 : (splitLines data.toList).length < 3
  · rw [if_pos h3, if_pos h3]
  · rw [if_neg h3, if_neg h3]
    rcases hc : chainNameMatch ((splitLines data.toList).getD 0 []) with _ | name
    · rfl
    · dsimp only
      by_cases hh : fieldsHeaderMatch ((splitLines data.toList).getD 1 []) = false
      · rw [if_pos hh, if_pos hh]
      · rw [if_neg hh, if_neg hh]

/-- The chain loop of `Gather` lists every chain in order and appends
exactly the per-chain errors to the accumulator. -/
theorem foldl_gatherStep (ipt : Iptables) (chains : List String) (acc : Accumulator)
    (calls : List (String × String)) :
    (chains.foldl (gatherStep ipt) (acc, calls)).2 =
      calls ++ chains.map (fun c => (ipt.table, c)) ∧
    (chains.foldl (gatherStep ipt) (acc, calls)).1.errors =
      acc.errors ++ chains.filterMap (chainOutcome ipt) := by
  induction chains generalizing acc calls with
  | nil => simp
  | cons c cs ih =>
    rw [List.foldl_cons, List.map_cons, List.filterMap_cons]
    rcases hl : ipt.lister ipt.table c with e | d
    · have ho : chainOutcome ipt c = some e := by
        unfold chainOutcome
        rw [hl]
      have hstep : gatherStep ipt (acc, calls) c =
          (acc.addError (some e), calls ++ [(ipt.table, c)]) := by
        unfold gatherStep
        rw [hl]
      rw [hstep]
      simp only [ho]
      obtain ⟨ih1, ih2⟩ := ih (acc.addError (some e)) (calls ++ [(ipt.table, c)])
      refine ⟨by rw [ih1]; simp, ?_⟩
      rw [ih2]
      simp [Accumulator.addError]
    · rcases hpe : ipt.parseAndGather d acc with ⟨a', err⟩
      have herr : a'.errors = acc.errors := by
        have h := parseAndGather_fst_errors ipt d acc
        rw [hpe] at h
        exact h
      have ho : chainOutcome ipt c = err := by
        unfold chainOutcome
        rw [hl]
        dsimp only
        rw [parseAndGather_snd_ind ipt d ⟨[], []⟩ acc, hpe]
      cases err with
      | none =>
        have hstep : gatherStep ipt (acc, calls) c = (a', calls ++ [(ipt.table, c)]) := by
          unfold gatherStep
          rw [hl]
          dsimp only
          rw [hpe]
        rw [hstep]
        simp only [ho]
        obtain ⟨ih1, ih2⟩ := ih a' (calls ++ [(ipt.table, c)])
        exact ⟨by rw [ih1]; simp, by rw [ih2, herr]⟩
      | some e =>
        have hstep : gatherStep ipt (acc, calls) c =
            (a'.addError (some e), calls ++ [(ipt.table, c)]) := by
          unfold gatherStep
          rw [hl]
          dsimp only
          rw [hpe]
        rw [hstep]
        simp only [ho]
        obtain ⟨ih1, ih2⟩ := ih (a'.addError (some e)) (calls ++ [(ipt.table, c)])
        refine ⟨by rw [ih1]; simp, ?_⟩
        rw [ih2]
        simp [Accumulator.addError, herr]

/-- Claim C9: with an empty table or no chains, `Gather` returns nil
immediately, lists nothing and leaves the accumulator unchanged;
otherwise it still returns nil, lists every configured chain, and
appends exactly the per-chain listing or parse errors. -/
theorem C9_gather_best_effort (ipt : Iptables) (acc : Accumulator) :
    ((ipt.table = "" ∨ ipt.chains = []) → ipt.gather acc = ⟨acc, [], none⟩) ∧
    (ipt.gather acc).ret = none ∧
    (¬(ipt.table = "" ∨ ipt.chains = []) →
      (ipt.gather acc).listerCalls = ipt.chains.map (fun c => (ipt.table, c)) ∧
      (ipt.gather acc).acc.errors = acc.errors ++ ipt.chains.filterMap (chainOutcome ipt)) := by
  unfold Iptables.gather
  by_cases h : ipt.table = "" ∨ ipt.chains = []
  · rw [if_pos h]
    exact ⟨fun _ => rfl, rfl, fun h' => absurd h h'⟩
  · rw [if_neg h]
    obtain ⟨h1, h2⟩ := foldl_gatherStep ipt ipt.chains acc []
    exact ⟨fun h' => absurd h' h, rfl, fun _ => ⟨by simpa using h1, h2⟩⟩

/-- Witness for C9: a lister failing on the first chain still lets the
second chain be listed and parsed; the single error is accumulated and
the return value is nil. -/
theorem C9_witness :
    (iptW.gather emptyAcc).listerCalls = [("filter", "BAD"), ("filter", "FORWARD")] ∧
    (iptW.gather emptyAcc).acc.errors = ["exit status 1"] ∧
    (iptW.gather emptyAcc).ret = none := by
  obtain ⟨h1, h2⟩ := (C9_gather_best_effort iptW emptyAcc).2.2 (by decide)
  refine ⟨by rw [h1]; rfl, by rw [h2]; rfl, (C9_gather_best_effort iptW emptyAcc).2.1⟩

/-! ## Theorems: the nginx_plus status flattening -/

/-- Claim C1 is false of the code: on a successfully decoded document
that lacks the optional `processes` and `ssl` sections and whose cache
lacks the `revalidated` block, each of `gatherProcessesMetrics`,
`gatherSslMetrics` and `gatherCacheMetrics` dereferences a nil pointer
(modelled as `none`), and `status.gather` crashes instead of emitting
the eight sections. -/
theorem C1_nil_section_panics :
    statusV2.gatherProcessesMetrics tagsLocal = none ∧
    statusV2.gatherSslMetrics tagsLocal = none ∧
    statusV2.gatherCacheMetrics tagsLocal = none ∧
    statusV2.gather tagsLocal = none :=
  ⟨rfl, rfl, rfl, rfl⟩

/-- Counterexample to claim C2 as stated: `statusNoProcesses` is a
successfully decoded document (it merely lacks the optional
`processes` section), yet `status.gather` panics and emits no
`nginx_plus_connections` metric at all, rather than exactly one. -/
theorem C2_counterexample :
    statusNoProcesses.gather [("server", "10.0.0.1"), ("port", "80")] = none := rfl

/-- Looking up a key just inserted into a tag map finds its value. -/
theorem lookupTag_insertTag_self (t : List (String × String)) (k v : String) :
    lookupTag (insertTag t k v) k = some v := by
  induction t with
  | nil => simp [insertTag, lookupTag]
  | cons p t ih =>
    obtain ⟨a, b⟩ := p
    by_cases h : a = k
    · simp [insertTag, lookupTag, h]
    · simp [insertTag, lookupTag, h, ih]

/-- Inserting under a different key does not change a lookup. -/
theorem lookupTag_insertTag_ne (t : List (String × String)) (k k' v : String)
    (h : k ≠ k') :
    lookupTag (insertTag t k' v) k = lookupTag t k := by
  induction t with
  | nil => simp [insertTag, lookupTag, Ne.symm h]
  | cons p t ih =>
    obtain ⟨a, b⟩ := p
    by_cases ha : a = k'
    · subst ha
      simp [insertTag, lookupTag, Ne.symm h]
    · by_cases hak : a = k
      · simp [insertTag, lookupTag, ha, hak, h]
      · simp [insertTag, lookupTag, ha, hak, ih]

theorem byMeas_append (a b : List Metric) (n : String) :
    byMeas (a ++ b) n = byMeas a n ++ byMeas b n :=
  List.filter_append a b

theorem byMeas_cons_eq {m : Metric} {n : String} (ms : List Metric)
    (h : m.measurement = n) :
    byMeas (m :: ms) n = m :: byMeas ms n := by
  simp [byMeas, List.filter_cons, h]

theorem byMeas_cons_ne {m : Metric} {n : String} (ms : List Metric)
    (h : m.measurement ≠ n) :
    byMeas (m :: ms) n = byMeas ms n := by
  simp [byMeas, List.filter_cons, h]

theorem byMeas_map_eq {α : Type} (l : List α) (f : α → Metric) (n : String)
    (h : ∀ a, (f a).measurement = n) :
    byMeas (l.map f) n = l.map f := by
  refine List.filter_eq_self.mpr ?_
  intro m hm
  obtain ⟨a, _, rfl⟩ := List.mem_map.mp hm
  simp [h a]

theorem byMeas_map_ne {α : Type} (l : List α) (f : α → Metric) (n : String)
    (h : ∀ a, (f a).measurement ≠ n) :
    byMeas (l.map f) n = [] := by
  refine List.filter_eq_nil_iff.mpr ?_
  intro m hm
  obtain ⟨a, _, rfl⟩ := List.mem_map.mp hm
  simp [h a]

theorem byMeas_of_forall (ms : List Metric) (c n : String)
    (h : ∀ m ∈ ms, m.measurement = c) :
    byMeas ms n = if c = n then ms else [] := by
  by_cases hcn : c = n
  · subst hcn
    rw [if_pos rfl]
    refine List.filter_eq_self.mpr ?_
    intro m hm
    simp [h m hm]
  · rw [if_neg hcn]
    refine List.filter_eq_nil_iff.mpr ?_
    intro m hm
    simp [h m hm, hcn]

theorem byMeas_flatMap {α : Type} (l : List α) (f : α → List Metric) (n : String) :
    byMeas (l.flatMap f) n = l.flatMap (fun a => byMeas (f a) n) := by
  induction l with
  | nil => rfl
  | cons a l ih => rw [List.flatMap_cons, List.flatMap_cons, byMeas_append, ih]

theorem flatMap_singleton_map {α β : Type} (l : List α) (f : α → β) :
    (l.flatMap fun a => [f a]) = l.map f := by
  induction l with
  | nil => rfl
  | cons a l ih => simp [ih]

/-- Measurement spectrum of the server-zone section. -/
theorem byMeas_zoneSection (tags : List (String × String))
    (l : List (String × ServerZone)) (n : String) :
    byMeas (l.map (zoneMetric tags)) n =
      if n = "nginx_plus_zone" then l.map (zoneMetric tags) else [] := by
  by_cases h : n = "nginx_plus_zone"
  · subst h
    rw [if_pos rfl]
    exact byMeas_map_eq _ _ _ (fun _ => rfl)
  · rw [if_neg h]
    exact byMeas_map_ne _ _ _ (fun _ => Ne.symm h)

/-- Measurement spectrum of the upstream section: the interleaved
upstream and peer metrics separate by measurement. -/
theorem byMeas_upstreamSection (tags : List (String × String))
    (l : List (String × Upstream)) (n : String) :
    byMeas (l.flatMap (fun nu =>
        upstreamMetric (insertTag tags "upstream" nu.1) nu.2 ::
          nu.2.peers.map (upstreamPeerMetric (insertTag tags "upstream" nu.1)))) n =
      (if n = "nginx_plus_upstream" then
        l.map (fun nu => upstreamMetric (insertTag tags "upstream" nu.1) nu.2)
      else if n = "nginx_plus_upstream_peer" then
        l.flatMap (fun nu => nu.2.peers.map (upstreamPeerMetric (insertTag tags "upstream" nu.1)))
      else []) := by
  induction l with
  | nil =>
    rw [List.flatMap_nil]
    split
    · rfl
    split
    · rfl
    · rfl
  | cons nu l ih =>
    rw [List.flatMap_cons, byMeas_append, ih]
    by_cases h1 : n = "nginx_plus_upstream"
    · subst h1
      rw [byMeas_cons_eq _
            (show (upstreamMetric (insertTag tags "upstream" nu.1) nu.2).measurement =
              "nginx_plus_upstream" from rfl),
          byMeas_map_ne nu.2.peers (upstreamPeerMetric (insertTag tags "upstream" nu.1))
            "nginx_plus_upstream"
            (fun _ => show "nginx_plus_upstream_peer" ≠ "nginx_plus_upstream" by decide)]
      simp
    · by_cases h2 : n = "nginx_plus_upstream_peer"
      · subst h2
        rw [byMeas_cons_ne _
              (show "nginx_plus_upstream" ≠ "nginx_plus_upstream_peer" by decide),
            byMeas_map_eq nu.2.peers (upstreamPeerMetric (insertTag tags "upstream" nu.1))
              "nginx_plus_upstream_peer" (fun _ => rfl)]
        simp
      · rw [byMeas_cons_ne _
              (show (upstreamMetric (insertTag tags "upstream" nu.1) nu.2).measurement ≠ n
                from Ne.symm h1),
            byMeas_map_ne nu.2.peers (upstreamPeerMetric (insertTag tags "upstream" nu.1))
              n (fun _ => Ne.symm h2)]
        simp [h1, h2]

/-- Measurement spectrum of the stream upstream part. -/
theorem byMeas_streamUpsSection (tags : List (String × String))
    (l : List (String × StreamUpstream)) (n : String) :
    byMeas (l.flatMap (fun nu =>
        streamUpstreamMetric (insertTag tags "upstream" nu.1) nu.2 ::
          nu.2.peers.map (streamPeerMetric (insertTag tags "upstream" nu.1)))) n =
      (if n = "nginx_plus_stream_upstream" then
        l.map (fun nu => streamUpstreamMetric (insertTag tags "upstream" nu.1) nu.2)
      else if n = "nginx_plus_stream_upstream_peer" then
        l.flatMap (fun nu => nu.2.peers.map (streamPeerMetric (insertTag tags "upstream" nu.1)))
      else []) := by
  induction l with
  | nil =>
    rw [List.flatMap_nil]
    split
    · rfl
    split
    · rfl
    · rfl
  | cons nu l ih =>
    rw [List.flatMap_cons, byMeas_append, ih]
    by_cases h1 : n = "nginx_plus_stream_upstream"
    · subst h1
      rw [byMeas_cons_eq _
            (show (streamUpstreamMetric (insertTag tags "upstream" nu.1) nu.2).measurement =
              "nginx_plus_stream_upstream" from rfl),
          byMeas_map_ne nu.2.peers (streamPeerMetric (insertTag tags "upstream" nu.1))
            "nginx_plus_stream_upstream"
            (fun _ => show "nginx_plus_stream_upstream_peer" ≠ "nginx_plus_stream_upstream" by decide)]
      simp
    · by_cases h2 : n = "nginx_plus_stream_upstream_peer"
      · subst h2
        rw [byMeas_cons_ne _
              (show "nginx_plus_stream_upstream" ≠ "nginx_plus_stream_upstream_peer" by decide),
            byMeas_map_eq nu.2.peers (streamPeerMetric (insertTag tags "upstream" nu.1))
              "nginx_plus_stream_upstream_peer" (fun _ => rfl)]
        simp
      · rw [byMeas_cons_ne _
              (show (streamUpstreamMetric (insertTag tags "upstream" nu.1) nu.2).measurement ≠ n
                from Ne.symm h1),
            byMeas_map_ne nu.2.peers (streamPeerMetric (insertTag tags "upstream" nu.1))
              n (fun _ => Ne.symm h2)]
        simp [h1, h2]

/-- Measurement spectrum of the stream server-zone part. -/
theorem byMeas_streamZoneSection (tags : List (String × String))
    (l : List (String × StreamServerZone)) (n : String) :
    byMeas (l.map (streamZoneMetric tags)) n =
      if n = "nginx.stream.zone" then l.map (streamZoneMetric tags) else [] := by
  by_cases h : n = "nginx.stream.zone"
  · subst h
    rw [if_pos rfl]
    exact byMeas_map_eq _ _ _ (fun _ => rfl)
  · rw [if_neg h]
    exact byMeas_map_ne _ _ _ (fun _ => Ne.symm h)

/-- The peer-metric tag map only overrides the `upstream_address` and
(optionally) `id` keys of the upstream tag map. -/
theorem upstreamPeerMetric_lookup (utags : List (String × String)) (p : UpstreamPeer)
    (k : String) (hk1 : k ≠ "upstream_address") (hk2 : k ≠ "id") :
    lookupTag (upstreamPeerMetric utags p).tags k = lookupTag utags k := by
  unfold upstreamPeerMetric
  rcases hid : p.id with _ | i
  · exact lookupTag_insertTag_ne _ _ _ _ hk1
  · rw [lookupTag_insertTag_ne _ _ _ _ hk2]
    exact lookupTag_insertTag_ne _ _ _ _ hk1

/-- The peer metric carries the peer's server address under
`upstream_address`. -/
theorem upstreamPeerMetric_lookup_addr (utags : List (String × String)) (p : UpstreamPeer) :
    lookupTag (upstreamPeerMetric utags p).tags "upstream_address" = some p.server := by
  unfold upstreamPeerMetric
  rcases hid : p.id with _ | i
  · exact lookupTag_insertTag_self _ _ _
  · rw [lookupTag_insertTag_ne _ _ _ _ (by decide)]
    exact lookupTag_insertTag_self _ _ _

/-- With every `revalidated` block present, the cache section yields
one `nginx_plus_cache` metric per cache, tagged with the cache name. -/
theorem mapM_cacheMetric (tags : List (String × String)) (l : List (String × Cache))
    (h : ∀ nc ∈ l, nc.2.revalidated ≠ none) :
    ∃ cs, l.mapM (cacheMetric tags) = some cs ∧
      cs.length = l.length ∧
      (∀ m ∈ cs, m.measurement = "nginx_plus_cache") ∧
      cs.map (fun m => lookupTag m.tags "cache") = l.map (fun nc => some nc.1) := by
  induction l with
  | nil =>
    refine ⟨[], ?_, rfl, ?_, rfl⟩
    · rw [List.mapM_nil]
      rfl
    · intro m hm
      cases hm
  | cons nc l ih =>
    obtain ⟨rv, hrv⟩ := Option.ne_none_iff_exists'.mp (h nc (List.mem_cons_self nc l))
    obtain ⟨cs, hcs, hlen, hmeas, htags⟩ := ih (fun x hx => h x (List.mem_cons_of_mem nc hx))
    obtain ⟨m0, hm0, hm0meas, hm0tags⟩ :
        ∃ m0, cacheMetric tags nc = some m0 ∧ m0.measurement = "nginx_plus_cache" ∧
          m0.tags = insertTag tags "cache" nc.1 := by
      unfold cacheMetric
      dsimp only
      rw [hrv]
      exact ⟨_, rfl, rfl, rfl⟩
    refine ⟨m0 :: cs, ?_, ?_, ?_, ?_⟩
    · rw [List.mapM_cons, hm0, hcs]
      rfl
    · simp [hlen]
    · intro m hm
      rcases List.mem_cons.mp hm with rfl | hmem
      · exact hm0meas
      · exact hmeas m hmem
    · simp only [List.map_cons, htags, hm0tags, lookupTag_insertTag_self]

/-- The upstream tag each peer metric carries is the upstream name. -/
theorem peerTags_upstream_lookup (tags : List (String × String))
    (l : List (String × Upstream)) :
    (l.flatMap fun nu =>
        nu.2.peers.map (upstreamPeerMetric (insertTag tags "upstream" nu.1))).map
      (fun m => lookupTag m.tags "upstream") =
    l.flatMap fun nu => List.replicate nu.2.peers.length (some nu.1) := by
  rw [List.map_flatMap]
  refine List.flatMap_congr fun nu _ => ?_
  rw [List.map_map]
  have hpt : ∀ p ∈ nu.2.peers,
      ((fun m => lookupTag m.tags "upstream") ∘
        upstreamPeerMetric (insertTag tags "upstream" nu.1)) p = some nu.1 := by
    intro p _
    show lookupTag (upstreamPeerMetric (insertTag tags "upstream" nu.1) p).tags "upstream" =
      some nu.1
    rw [upstreamPeerMetric_lookup (insertTag tags "upstream" nu.1) p "upstream"
      (by decide) (by decide)]
    exact lookupTag_insertTag_self tags "upstream" nu.1
  rw [List.map_congr_left hpt]
  simp

/-- The upstream_address tag each peer metric carries is the peer's
server address. -/
theorem peerTags_addr_lookup (tags : List (String × String))
    (l : List (String × Upstream)) :
    (l.flatMap fun nu =>
        nu.2.peers.map (upstreamPeerMetric (insertTag tags "upstream" nu.1))).map
      (fun m => lookupTag m.tags "upstream_address") =
    l.flatMap fun nu => nu.2.peers.map (fun p => some p.server) := by
  rw [List.map_flatMap]
  refine List.flatMap_congr fun nu _ => ?_
  rw [List.map_map]
  refine List.map_congr_left fun p _ => ?_
  show lookupTag
      (upstreamPeerMetric (insertTag tags "upstream" nu.1) p).tags "upstream_address" =
    some p.server
  exact upstreamPeerMetric_lookup_addr (insertTag tags "upstream" nu.1) p

theorem byMeas_singleton (m : Metric) (n : String) :
    byMeas [m] n = if m.measurement = n then [m] else [] := by
  by_cases h : m.measurement = n <;> simp [byMeas, List.filter_cons, h]

/-- Claim C2 as amended: on every decoded document whose optional
`processes` and `ssl` sections are present and all of whose caches
carry a `revalidated` block (so that gathering does not panic),
`status.gather` flattens the nested schema: exactly one
`nginx_plus_connections` metric holding the decoded connection
counters, exactly one `nginx_plus_requests` metric with fields total
and current, one `nginx_plus_zone` metric per server zone tagged with
the zone name, one `nginx_plus_upstream` metric per upstream tagged
with the upstream name plus one `nginx_plus_upstream_peer` metric per
peer tagged with the upstream name and the peer's server address, one
`nginx_plus_cache` metric per cache tagged with the cache name, and one
metric per stream server zone, per stream upstream and per stream
peer. -/
theorem C2_flatten (s : Status) (tags : List (String × String))
    (hp : s.processes ≠ none) (hs : s.ssl ≠ none)
    (hc : ∀ nc ∈ s.caches, nc.2.revalidated ≠ none) :
    ∃ ms, s.gather tags = some ms ∧
      byMeas ms "nginx_plus_connections" =
        [⟨"nginx_plus_connections", tags,
          [("accepted", FieldValue.i s.connections.accepted),
           ("dropped", FieldValue.i s.connections.dropped),
           ("active", FieldValue.i s.connections.active),
           ("idle", FieldValue.i s.connections.idle)]⟩] ∧
      byMeas ms "nginx_plus_requests" =
        [⟨"nginx_plus_requests", tags,
          [("total", FieldValue.i s.requests.total),
           ("current", FieldValue.i s.requests.current)]⟩] ∧
      measCount ms "nginx_plus_zone" = s.serverZones.length ∧
      tagsOf ms "nginx_plus_zone" "zone" = s.serverZones.map (fun nz => some nz.1) ∧
      measCount ms "nginx_plus_upstream" = s.upstreams.length ∧
      tagsOf ms "nginx_plus_upstream" "upstream" = s.upstreams.map (fun nu => some nu.1) ∧
      measCount ms "nginx_plus_upstream_peer" =
        (s.upstreams.map (fun nu => nu.2.peers.length)).sum ∧
      tagsOf ms "nginx_plus_upstream_peer" "upstream" =
        s.upstreams.flatMap (fun nu => nu.2.peers.map (fun _ => some nu.1)) ∧
      tagsOf ms "nginx_plus_upstream_peer" "upstream_address" =
        s.upstreams.flatMap (fun nu => nu.2.peers.map (fun p => some p.server)) ∧
      measCount ms "nginx_plus_cache" = s.caches.length ∧
      tagsOf ms "nginx_plus_cache" "cache" = s.caches.map (fun nc => some nc.1) ∧
      measCount ms "nginx.stream.zone" = s.stream.serverZones.length ∧
      measCount ms "nginx_plus_stream_upstream" = s.stream.upstreams.length ∧
      measCount ms "nginx_plus_stream_upstream_peer" =
        (s.stream.upstreams.map (fun nu => nu.2.peers.length)).sum := by
  obtain ⟨procs, hps⟩ := Option.ne_none_iff_exists'.mp hp
  obtain ⟨ssl0, hss⟩ := Option.ne_none_iff_exists'.mp hs
  obtain ⟨cs, hcs, hclen, hcmeas, hctags⟩ := mapM_cacheMetric tags s.caches hc
  obtain ⟨pm, hgp, hpmeas⟩ :
      ∃ pm, s.gatherProcessesMetrics tags = some [pm] ∧
        pm.measurement = "nginx_plus_processes" := by
    unfold Status.gatherProcessesMetrics
    rw [hps]
    exact ⟨_, rfl, rfl⟩
  obtain ⟨sm, hgs, hsmeas⟩ :
      ∃ sm, s.gatherSslMetrics tags = some [sm] ∧ sm.measurement = "nginx_plus_ssl" := by
    unfold Status.gatherSslMetrics
    rw [hss]
    exact ⟨_, rfl, rfl⟩
  have hgc : s.gatherCacheMetrics tags = some cs := hcs
  have hg : s.gather tags =
      some ([pm] ++ s.gatherConnectionsMetrics tags ++ [sm] ++ s.gatherRequestMetrics tags
        ++ s.gatherZoneMetrics tags ++ s.gatherUpstreamMetrics tags ++ cs
        ++ s.gatherStreamMetrics tags) := by
    unfold Status.gather
    rw [hgp, hgs, hgc]
  have hPm : ∀ n, byMeas [pm] n = if "nginx_plus_processes" = n then [pm] else [] := by
    intro n
    rw [byMeas_singleton, hpmeas]
  have hSm : ∀ n, byMeas [sm] n = if "nginx_plus_ssl" = n then [sm] else [] := by
    intro n
    rw [byMeas_singleton, hsmeas]
  have hCs : ∀ n, byMeas cs n = if "nginx_plus_cache" = n then cs else [] :=
    fun n => byMeas_of_forall cs _ n hcmeas
  have hC : s.gatherConnectionsMetrics tags =
      [⟨"nginx_plus_connections", tags,
        [("accepted", FieldValue.i s.connections.accepted),
         ("dropped", FieldValue.i s.connections.dropped),
         ("active", FieldValue.i s.connections.active),
         ("idle", FieldValue.i s.connections.idle)]⟩] := rfl
  have hR : s.gatherRequestMetrics tags =
      [⟨"nginx_plus_requests", tags,
        [("total", FieldValue.i s.requests.total),
         ("current", FieldValue.i s.requests.current)]⟩] := rfl
  have hZ : s.gatherZoneMetrics tags = s.serverZones.map (zoneMetric tags) := rfl
  have hU : s.gatherUpstreamMetrics tags = s.upstreams.flatMap (fun nu =>
      upstreamMetric (insertTag tags "upstream" nu.1) nu.2 ::
        nu.2.peers.map (upstreamPeerMetric (insertTag tags "upstream" nu.1))) := rfl
  have hSt : s.gatherStreamMetrics tags =
      s.stream.serverZones.map (streamZoneMetric tags)
        ++ s.stream.upstreams.flatMap (fun nu =>
            streamUpstreamMetric (insertTag tags "upstream" nu.1) nu.2 ::
              nu.2.peers.map (streamPeerMetric (insertTag tags "upstream" nu.1))) := rfl
  refine ⟨_, hg, ?_, ?_, ?_, ?_, ?_, ?_, ?_, ?_, ?_, ?_, ?_, ?_, ?_, ?_⟩
  · simp only [hC, hR, hZ, hU, hSt, byMeas_append, hPm, hSm, hCs, byMeas_singleton,
      byMeas_zoneSection, byMeas_upstreamSection, byMeas_streamZoneSection,
      byMeas_streamUpsSection]
    simp
  · simp only [hC, hR, hZ, hU, hSt, byMeas_append, hPm, hSm, hCs, byMeas_singleton,
      byMeas_zoneSection, byMeas_upstreamSection, byMeas_streamZoneSection,
      byMeas_streamUpsSection]
    simp
  · simp only [measCount, hC, hR, hZ, hU, hSt, byMeas_append, hPm, hSm, hCs,
      byMeas_singleton, byMeas_zoneSection, byMeas_upstreamSection, byMeas_streamZoneSection,
      byMeas_streamUpsSection]
    simp
  · simp only [tagsOf, hC, hR, hZ, hU, hSt, byMeas_append, hPm, hSm, hCs,
      byMeas_singleton, byMeas_zoneSection, byMeas_upstreamSection, byMeas_streamZoneSection,
      byMeas_streamUpsSection]
    simp
    intro a b _
    exact lookupTag_insertTag_self tags "zone" a
  · simp only [measCount, hC, hR, hZ, hU, hSt, byMeas_append, hPm, hSm, hCs,
      byMeas_singleton, byMeas_zoneSection, byMeas_upstreamSection, byMeas_streamZoneSection,
      byMeas_streamUpsSection]
    simp
  · simp only [tagsOf, hC, hR, hZ, hU, hSt, byMeas_append, hPm, hSm, hCs,
      byMeas_singleton, byMeas_zoneSection, byMeas_upstreamSection, byMeas_streamZoneSection,
      byMeas_streamUpsSection]
    simp
    intro a b _
    exact lookupTag_insertTag_self tags "upstream" a
  · simp only [measCount, hC, hR, hZ, hU, hSt, byMeas_append, hPm, hSm, hCs,
      byMeas_singleton, byMeas_zoneSection, byMeas_upstreamSection, byMeas_streamZoneSection,
      byMeas_streamUpsSection]
    simp [List.length_flatMap, Function.comp_def]
  · simp only [tagsOf, hC, hR, hZ, hU, hSt, byMeas_append, hPm, hSm, hCs,
      byMeas_singleton, byMeas_zoneSection, byMeas_upstreamSection, byMeas_streamZoneSection,
      byMeas_streamUpsSection]
    simp
    exact peerTags_upstream_lookup tags s.upstreams
  · simp only [tagsOf, hC, hR, hZ, hU, hSt, byMeas_append, hPm, hSm, hCs,
      byMeas_singleton, byMeas_zoneSection, byMeas_upstreamSection, byMeas_streamZoneSection,
      byMeas_streamUpsSection]
    simp
    exact peerTags_addr_lookup tags s.upstreams
  · simp only [measCount, hC, hR, hZ, hU, hSt, byMeas_append, hPm, hSm, hCs,
      byMeas_singleton, byMeas_zoneSection, byMeas_upstreamSection, byMeas_streamZoneSection,
      byMeas_streamUpsSection]
    simp [hclen]
  · simp only [tagsOf, hC, hR, hZ, hU, hSt, byMeas_append, hPm, hSm, hCs,
      byMeas_singleton, byMeas_zoneSection, byMeas_upstreamSection, byMeas_streamZoneSection,
      byMeas_streamUpsSection]
    simp [hctags]
  · simp only [measCount, hC, hR, hZ, hU, hSt, byMeas_append, hPm, hSm, hCs,
      byMeas_singleton, byMeas_zoneSection, byMeas_upstreamSection, byMeas_streamZoneSection,
      byMeas_streamUpsSection]
    simp
  · simp only [measCount, hC, hR, hZ, hU, hSt, byMeas_append, hPm, hSm, hCs,
      byMeas_singleton, byMeas_zoneSection, byMeas_upstreamSection, byMeas_streamZoneSection,
      byMeas_streamUpsSection]
    simp
  · simp only [measCount, hC, hR, hZ, hU, hSt, byMeas_append, hPm, hSm, hCs,
      byMeas_singleton, byMeas_zoneSection, byMeas_upstreamSection, byMeas_streamZoneSection,
      byMeas_streamUpsSection]
    simp [List.length_flatMap, Function.comp_def]

/-- Witness for the amended C2 on a concrete fully-populated document:
one zone, one upstream with one peer, one cache with a revalidated
block, one stream zone and one stream upstream with one peer. -/
theorem C2_witness :
    ∃ ms, statusFull.gather tagsLocal = some ms ∧
      measCount ms "nginx_plus_zone" = statusFull.serverZones.length ∧
      measCount ms "nginx_plus_upstream_peer" =
        (statusFull.upstreams.map (fun nu => nu.2.peers.length)).sum ∧
      tagsOf ms "nginx_plus_cache" "cache" = statusFull.caches.map (fun nc => some nc.1) := by
  obtain ⟨ms, h1, _, _, hzc, _, _, _, hpc, _, _, _, hct, _, _, _⟩ :=
    C2_flatten statusFull tagsLocal (by decide) (by decide) (by decide)
  exact ⟨ms, h1, hzc, hpc, hct⟩

/-- Claim C5: in the emitted records each versioned or optional datum
appears exactly when it was non-nil in the decoded document — the zone
field `discarded`; the upstream queue fields; the upstream-peer fields
`healthchecks_last_passed`, `header_time`, `response_time`, `max_conns`
and the peer tag `id`; the stream-peer fields
`healthchecks_last_passed`, `connect_time`, `first_byte_time`,
`response_time` — while every other mapped field is always present. -/
theorem C5_optional_fields (sv pt zn : String) (z : ServerZone) (un : String)
    (u : Upstream) (p : UpstreamPeer) (sp : StreamPeer) :
    fieldKeys (zoneMetric [("server", sv), ("port", pt)] (zn, z)) =
      ["processing", "requests", "responses_1xx", "responses_2xx", "responses_3xx",
       "responses_4xx", "responses_5xx", "responses_total", "received", "sent"]
      ++ (if z.discarded.isSome then ["discarded"] else []) ∧
    fieldKeys (upstreamMetric (insertTag [("server", sv), ("port", pt)] "upstream" un) u) =
      ["keepalive", "zombies"]
      ++ (if u.queue.isSome then ["queue_size", "queue_max_size", "queue_overflows"]
          else []) ∧
    fieldKeys (upstreamPeerMetric (insertTag [("server", sv), ("port", pt)] "upstream" un) p) =
      ["backup", "weight", "state", "active", "requests", "responses_1xx", "responses_2xx",
       "responses_3xx", "responses_4xx", "responses_5xx", "responses_total", "sent",
       "received", "fails", "unavail", "healthchecks_checks", "healthchecks_fails",
       "healthchecks_unhealthy", "downtime", "downstart", "selected"]
      ++ (if p.healthChecks.lastPassed.isSome then ["healthchecks_last_passed"] else [])
      ++ (if p.headerTime.isSome then ["header_time"] else [])
      ++ (if p.responseTime.isSome then ["response_time"] else [])
      ++ (if p.maxConns.isSome then ["max_conns"] else []) ∧
    tagKeys (upstreamPeerMetric (insertTag [("server", sv), ("port", pt)] "upstream" un) p) =
      ["server", "port", "upstream", "upstream_address"]
      ++ (if p.id.isSome then ["id"] else []) ∧
    fieldKeys (streamPeerMetric (insertTag [("server", sv), ("port", pt)] "upstream" un) sp) =
      ["backup", "weight", "state", "active", "connections", "sent", "received", "fails",
       "unavail", "healthchecks_checks", "healthchecks_fails", "healthchecks_unhealthy",
       "downtime", "downstart", "selected"]
      ++ (if sp.healthChecks.lastPassed.isSome then ["healthchecks_last_passed"] else [])
      ++ (if sp.connectTime.isSome then ["connect_time"] else [])
      ++ (if sp.firstByteTime.isSome then ["first_byte_time"] else [])
      ++ (if sp.responseTime.isSome then ["response_time"] else []) := by
  refine ⟨?_, ?_, ?_, ?_, ?_⟩
  · rcases hd : z.discarded with _ | d <;> simp [fieldKeys, zoneMetric, hd]
  · rcases hq : u.queue with _ | q <;> simp [fieldKeys, upstreamMetric, hq]
  · rcases hl : p.healthChecks.lastPassed with _ | lp <;>
      rcases hh : p.headerTime with _ | ht <;>
      rcases hr : p.responseTime with _ | rt <;>
      rcases hm : p.maxConns with _ | mc <;>
      simp [fieldKeys, upstreamPeerMetric, hl, hh, hr, hm]
  · rcases hid : p.id with _ | i <;>
      simp [tagKeys, upstreamPeerMetric, insertTag, hid]
  · rcases hl : sp.healthChecks.lastPassed with _ | lp <;>
      rcases hct : sp.connectTime with _ | ct <;>
      rcases hf : sp.firstByteTime with _ | fb <;>
      rcases hr : sp.responseTime with _ | rt <;>
      simp [fieldKeys, streamPeerMetric, hl, hct, hf, hr]

/-! ## Theorems: the nginx_plus HTTP layer and Gather -/

/-- The receiver returned by `createHTTPClient` is the original plugin
value with only the response timeout adjusted. -/
theorem createHTTPClient_fst (n : NginxPlus) :
    (n.createHTTPClient).1 =
      (if n.responseTimeout < nsPerSecond then { n with responseTimeout := 5 * nsPerSecond }
       else n) := by
  unfold NginxPlus.createHTTPClient
  dsimp only
  split <;> rfl

/-- The URL loop of `Gather`, provided no URL's gathering panics:
every URL contributes its metrics and its error, in order. -/
theorem foldlM_gatherLoopStep (parse : String → Option URL) (net : URL → NetResponse)
    (urls : List String) (acc : Accumulator)
    (h : ∀ u ∈ urls, ∀ addr, parse u = some addr → gatherURL addr (net addr) ≠ none) :
    urls.foldlM (gatherLoopStep parse net) acc =
      some { metrics := acc.metrics ++ (urls.map (urlMetrics parse net)).flatten,
             errors := acc.errors ++ urls.filterMap (urlError parse net) } := by
  induction urls generalizing acc with
  | nil => simp
  | cons u us ih =>
    rw [List.foldlM_cons]
    rcases hpu : parse u with _ | addr
    · have hstep : gatherLoopStep parse net acc u =
          some (acc.addError (some ("unable to parse address " ++ u))) := by
        unfold gatherLoopStep
        rw [hpu]
      have hue : urlError parse net u = some ("unable to parse address " ++ u) := by
        unfold urlError
        rw [hpu]
      have hum : urlMetrics parse net u = [] := by
        unfold urlMetrics
        rw [hpu]
      rw [hstep]
      show us.foldlM (gatherLoopStep parse net) (acc.addError _) = _
      rw [ih _ (fun x hx => h x (List.mem_cons_of_mem u hx))]
      simp [Accumulator.addError, hue, hum]
    · rcases hgu : gatherURL addr (net addr) with _ | r
      · exact absurd hgu (h u (List.mem_cons_self u us) addr hpu)
      · cases r with
        | error e =>
          have hstep : gatherLoopStep parse net acc u = some (acc.addError (some e)) := by
            unfold gatherLoopStep
            rw [hpu]
            dsimp only
            rw [hgu]
          have hue : urlError parse net u = some e := by
            unfold urlError
            rw [hpu]
            dsimp only
            rw [hgu]
          have hum : urlMetrics parse net u = [] := by
            unfold urlMetrics
            rw [hpu]
            dsimp only
            rw [hgu]
          rw [hstep]
          show us.foldlM (gatherLoopStep parse net) (acc.addError _) = _
          rw [ih _ (fun x hx => h x (List.mem_cons_of_mem u hx))]
          simp [Accumulator.addError, hue, hum]
        | ok ms =>
          have hstep : gatherLoopStep parse net acc u =
              some ((acc.addMetrics ms).addError none) := by
            unfold gatherLoopStep
            rw [hpu]
            dsimp only
            rw [hgu]
          have hue : urlError parse net u = none := by
            unfold urlError
            rw [hpu]
            dsimp only
            rw [hgu]
          have hum : urlMetrics parse net u = ms := by
            unfold urlMetrics
            rw [hpu]
            dsimp only
            rw [hgu]
          rw [hstep]
          show us.foldlM (gatherLoopStep parse net) ((acc.addMetrics ms).addError none) = _
          rw [ih _ (fun x hx => h x (List.mem_cons_of_mem u hx))]
          simp [Accumulator.addError, Accumulator.addMetrics, hue, hum]

/-- Counterexample to claim C6 as stated: with a single URL whose
response decodes to a document lacking the `processes` section,
`Gather` crashes on the nil-pointer panic instead of returning nil. -/
theorem C6_counterexample :
    NginxPlus.gather nginxCrash parseAll netCrash emptyAcc = none := rfl

/-- Claim C6 as amended: provided no URL's response triggers the
nil-pointer panic, `Gather` attempts every configured URL before
returning: an unparsable URL is reported via `AddError` and skipped
without affecting the others, every remaining URL contributes its
metrics and its per-URL error (if any), the creation error of the HTTP
client is the only non-nil return value, and otherwise `Gather`
returns nil regardless of per-URL failures. -/
theorem C6_gather_urls (n : NginxPlus) (parse : String → Option URL)
    (net : URL → NetResponse) (acc : Accumulator)
    (hnp : ∀ u ∈ n.urls, ∀ addr, parse u = some addr → gatherURL addr (net addr) ≠ none) :
    (∀ e, n.client = none → (n.createHTTPClient).2 = .error e →
      n.gather parse net acc = some ((n.createHTTPClient).1, acc, some e)) ∧
    ((n.client ≠ none ∨ ∃ c, (n.createHTTPClient).2 = .ok c) →
      ∃ n', n.gather parse net acc =
        some (n',
          { metrics := acc.metrics ++ (n.urls.map (urlMetrics parse net)).flatten,
            errors := acc.errors ++ n.urls.filterMap (urlError parse net) },
          none)) := by
  have hurls : (n.createHTTPClient).1.urls = n.urls := by
    rw [createHTTPClient_fst]
    split <;> rfl
  unfold NginxPlus.gather
  rcases hcl : n.client with _ | c0
  · rcases hch : n.createHTTPClient with ⟨n', r⟩
    cases r with
    | error e =>
      refine ⟨?_, ?_⟩
      · intro e' _ he
        dsimp only at he
        cases he
        rfl
      · rintro (hne | ⟨c, hok⟩)
        · exact absurd rfl hne
        · dsimp only at hok
          cases hok
    | ok c =>
      refine ⟨?_, ?_⟩
      · intro e' _ he
        dsimp only at he
        cases he
      · intro _
        have hn'urls : n'.urls = n.urls := by
          have h2 := hurls
          rw [hch] at h2
          exact h2
        refine ⟨{ n' with client := some c }, ?_⟩
        dsimp only
        rw [hn'urls, foldlM_gatherLoopStep parse net n.urls acc hnp]
  · refine ⟨?_, ?_⟩
    · intro e' hno _
      cases hno
    · intro _
      refine ⟨n, ?_⟩
      rw [foldlM_gatherLoopStep parse net n.urls acc hnp]

/-- Witness for the amended C6: one unparsable URL and one good URL;
the parse failure is reported, the good URL's metrics are gathered, and
the return value is nil. -/
theorem C6_witness :
    ∃ n', nginxW.gather parseW netTiny emptyAcc =
      some (n',
        { metrics := emptyAcc.metrics ++ (nginxW.urls.map (urlMetrics parseW netTiny)).flatten,
          errors := emptyAcc.errors ++ nginxW.urls.filterMap (urlError parseW netTiny) },
        none) := by
  refine (C6_gather_urls nginxW parseW netTiny emptyAcc ?_).2 (Or.inl ?_)
  · intro u hu addr hpa
    simp only [nginxW] at hu
    rcases List.mem_cons.mp hu with rfl | hu2
    · simp [parseW] at hpa
    · rcases List.mem_cons.mp hu2 with rfl | hu3
      · have haddr : addr = urlH1 := by
          simp [parseW] at hpa
          exact hpa.symm
        subst haddr
        intro hno
        have hs : (gatherURL urlH1 (netTiny urlH1)).isSome = true := rfl
        rw [hno] at hs
        cases hs
      · cases hu3
  · intro hno
    cases hno

/-- Claim C7: the HTTP client is created lazily and reused —
`createHTTPClient` only adjusts the timeout (a configured value below
one second becomes five seconds) and builds a client carrying it; a
`Gather` run with a stored client leaves the plugin value untouched;
and a `Gather` run that creates the client stores exactly the created
client for later calls. -/
theorem C7_client_lazy (n : NginxPlus) (parse : String → Option URL)
    (net : URL → NetResponse) (acc : Accumulator) :
    ((n.createHTTPClient).1 =
      (if n.responseTimeout < nsPerSecond then { n with responseTimeout := 5 * nsPerSecond }
       else n)) ∧
    (∀ c, (n.createHTTPClient).2 = .ok c →
      c.timeout =
        (if n.responseTimeout < nsPerSecond then 5 * nsPerSecond else n.responseTimeout)) ∧
    (∀ c r, n.client = some c → n.gather parse net acc = some r → r.1 = n) ∧
    (∀ c r, n.client = none → (n.createHTTPClient).2 = .ok c →
      n.gather parse net acc = some r → r.1.client = some c) := by
  refine ⟨createHTTPClient_fst n, ?_, ?_, ?_⟩
  · intro c hok
    unfold NginxPlus.createHTTPClient at hok
    by_cases hrt : n.responseTimeout < nsPerSecond
    · rw [if_pos hrt]
      simp only [if_pos hrt] at hok
      rcases htls : ({ n with responseTimeout := 5 * nsPerSecond} : NginxPlus).tlsConfigResult
        with e | uu
      · rw [htls] at hok
        cases hok
      · rw [htls] at hok
        cases hok
        rfl
    · rw [if_neg hrt]
      simp only [if_neg hrt] at hok
      rcases htls : n.tlsConfigResult with e | uu
      · rw [htls] at hok
        cases hok
      · rw [htls] at hok
        cases hok
        rfl
  · intro c r hcl hg
    unfold NginxPlus.gather at hg
    rw [hcl] at hg
    dsimp only at hg
    rcases hfold : n.urls.foldlM (gatherLoopStep parse net) acc with _ | acc'
    · rw [hfold] at hg
      cases hg
    · rw [hfold] at hg
      cases hg
      rfl
  · intro c r hcl hok hg
    unfold NginxPlus.gather at hg
    rw [hcl] at hg
    dsimp only at hg
    rcases hch : n.createHTTPClient with ⟨n', cr⟩
    rw [hch] at hg hok
    cases cr with
    | error e =>
      dsimp only at hok
      cases hok
    | ok c1 =>
      dsimp only at hok
      cases hok
      dsimp only at hg
      rcases hfold : ({ n' with client := some c } : NginxPlus).urls.foldlM
          (gatherLoopStep parse net) acc with _ | acc'
      · rw [hfold] at hg
        cases hg
      · rw [hfold] at hg
        cases hg
        rfl

/-- Witness for C7: a plugin value with no stored client and a zero
timeout gathers successfully and stores the five-second client. -/
theorem C7_witness :
    ∃ r, nginxLazy.gather parseW netTiny emptyAcc = some r ∧
      r.1.client = some ⟨5 * nsPerSecond⟩ := by
  have hg : nginxLazy.gather parseW netTiny emptyAcc =
      some ({ urls := [], responseTimeout := 5 * nsPerSecond, tlsConfigResult := .ok (),
              client := some ⟨5 * nsPerSecond⟩ }, emptyAcc, none) := rfl
  refine ⟨_, hg, ?_⟩
  exact (C7_client_lazy nginxLazy parseW netTiny emptyAcc).2.2.2 ⟨5 * nsPerSecond⟩ _ rfl rfl hg

/-- Claim C8: `gatherURL` returns an error and emits nothing whenever
the response status is not 200 or the Content-Type (before any
semicolon) is not application/json; `gatherStatusURL` returns an error
and emits nothing when JSON decoding fails; and metrics come only from
a successfully decoded body. -/
theorem C8_gatherURL_errors (addr : URL) (resp : NetResponse) :
    (resp.transportError = none → resp.statusCode ≠ 200 →
      ∃ e, gatherURL addr resp = some (.error e)) ∧
    (resp.transportError = none → resp.statusCode = 200 →
      (resp.contentType.toList.takeWhile (fun c => c ≠ ';')).asString ≠ "application/json" →
      ∃ e, gatherURL addr resp = some (.error e)) ∧
    (resp.transportError = none → resp.statusCode = 200 →
      (resp.contentType.toList.takeWhile (fun c => c ≠ ';')).asString = "application/json" →
      resp.body = none →
      gatherURL addr resp = some (.error "error while decoding JSON response")) ∧
    (∀ ms, gatherURL addr resp = some (.ok ms) →
      ∃ st, resp.body = some st ∧ st.gather (getTags addr) = some ms) := by
  unfold gatherURL
  rcases hte : resp.transportError with _ | e0
  · dsimp only
    by_cases hsc : resp.statusCode = 200
    · rw [if_neg (by simp [hsc])]
      by_cases hct :
          (resp.contentType.toList.takeWhile (fun c => c ≠ ';')).asString = "application/json"
      · rw [if_pos hct]
        unfold gatherStatusURL
        rcases hb : resp.body with _ | st
        · refine ⟨fun _ h => absurd hsc h, fun _ _ h => absurd hct h, fun _ _ _ _ => rfl, ?_⟩
          intro ms h
          cases h
        · dsimp only
          rcases hsg : st.gather (getTags addr) with _ | ms0
          · refine ⟨fun _ h => absurd hsc h, fun _ _ h => absurd hct h, ?_, ?_⟩
            · intro _ _ _ hbn
              cases hbn
            · intro ms h
              cases h
          · refine ⟨fun _ h => absurd hsc h, fun _ _ h => absurd hct h, ?_, ?_⟩
            · intro _ _ _ hbn
              cases hbn
            · intro ms h
              cases h
              exact ⟨st, rfl, hsg⟩
      · rw [if_neg hct]
        refine ⟨fun _ h => absurd hsc h, fun _ _ _ => ⟨_, rfl⟩, fun _ _ h => absurd h hct, ?_⟩
        intro ms h
        cases h
    · rw [if_pos hsc]
      refine ⟨fun _ _ => ⟨_, rfl⟩, fun _ h => absurd h hsc, fun _ h => absurd h hsc, ?_⟩
      intro ms h
      cases h
  · refine ⟨?_, ?_, ?_, ?_⟩
    · intro h
      cases h
    · intro h
      cases h
    · intro h
      cases h
    · intro ms h
      cases h

/-- Witness for C8: a 404 response yields an error and no metrics. -/
theorem C8_witness : ∃ e, gatherURL url8 resp404 = some (.error e) :=
  (C8_gatherURL_errors url8 resp404).1 rfl (by decide)

/-- Claim C10: `getTags` returns exactly the two tags server and port;
with an explicit port in the host they are the split host and port, and
otherwise the server is the whole host and the port defaults from the
scheme (80 for http, 443 for https, empty otherwise). -/
theorem C10_getTags_shape (addr : URL) :
    (getTags addr).length = 2 ∧
    (match splitHostPort addr.host with
     | some hp => lookupTag (getTags addr) "server" = some hp.1 ∧
         lookupTag (getTags addr) "port" = some hp.2
     | none => lookupTag (getTags addr) "server" = some addr.host ∧
         lookupTag (getTags addr) "port" =
           some (if addr.scheme = "http" then "80"
             else if addr.scheme = "https" then "443" else "")) := by
  unfold getTags
  rcases hsp : splitHostPort addr.host with _ | ⟨h, p⟩
  · dsimp only
    exact ⟨rfl, by simp [lookupTag], by simp [lookupTag]⟩
  · dsimp only
    exact ⟨rfl, by simp [lookupTag], by simp [lookupTag]⟩

/-- A bracketed IPv6 host with a port splits as in Go: the host is
unwrapped and the port follows the last colon. -/
theorem splitHostPort_bracketed : splitHostPort "[::1]:80" = some ("::1", "80") := rfl

/-- A plain host with a port splits at its single colon. -/
theorem splitHostPort_plain :
    splitHostPort "example.com:8080" = some ("example.com", "8080") := rfl

/-- A host without a colon is missing its port. -/
theorem splitHostPort_missing : splitHostPort "example.com" = none := rfl

/-- An unbracketed IPv6 host has too many colons. -/
theorem splitHostPort_tooManyColons : splitHostPort "::1" = none := rfl

/-- `getTags` on a bracketed IPv6 host with an explicit port returns
the unwrapped host and that port. -/
theorem getTags_bracketed :
    getTags ⟨"https", "[::1]:8443"⟩ = [("server", "::1"), ("port", "8443")] := rfl

end Telegraf
